import Mathlib

/-!
# Verification of the ZXDREAM optimization core

Shallow embedding of the components of the ZXDREAM repository that the
verified claims are about:

* `src/zdream/optimizer.py` — the abstract `Optimizer` base constructor and
  the `GeneticOptimizer` (constructor, `step`, `_breed`, `_mutate`, `init`);
* `src/zdream/utils/message.py` — `ZdreamMessage.best_code`;
* `src/zdream/scorer.py` — `Scorer._check_key_consistency`,
  `MSEScorer._score`, `MaxActivityScorer._combine`;
* `src/zdream/generator.py` — `Generator._masking_sanity_check` and the mask
  handling of `Generator.forward`.

Conventions of the embedding:

* NumPy float arrays are modelled with exact rationals; a one-dimensional
  array is a `List ℚ`, a batch of codes is a `List (List ℚ)` (row-major,
  one inner list per individual, flattened over the code shape).  The
  `dtype=np.float32` cast in `GeneticOptimizer.step` is modelled as the
  identity on values.
* Fallible Python code (raising) is modelled with `Except String`; the
  string carries the exception class and a shortened message.
* The NumPy random generator `np.random.default_rng(seed)` is owned by the
  optimizer.  Its internal algorithm (PCG64 and the distribution samplers)
  is library code external to this repository, so its draws are modelled by
  a deterministic word stream derived from the seed and a draw counter; the
  properties proved below depend only on the draws being a deterministic
  function of the owned generator state, never on their values.
-/

namespace ZXDream

/-- The four names admitted by the `RandomDistribution` literal of
`src/zdream/optimizer.py`. -/
inductive RandomDistribution where
  | normal
  | gumbel
  | laplace
  | logistic
deriving DecidableEq, Repr

/-- Owned random generator state: the construction seed plus the number of
elementary draws made so far.  Models the `np.random.default_rng` instance
stored in `Optimizer._rng`; the repository never reads global random state. -/
structure Rng where
  seed : ℕ
  count : ℕ
deriving DecidableEq, Repr

/-- One raw 64-bit word of the modelled stream.  The concrete mixing
function stands in for the PCG64 engine, which is NumPy library code not
part of the repository; everything proved below is independent of it. -/
def rngWord (r : Rng) : ℕ :=
  ((r.seed + 1) * 2862933555777941757 + (r.count + 1) * 3202034522624059733) % 2 ^ 64

/-- Draw one word and advance the generator. -/
def Rng.next (r : Rng) : ℕ × Rng :=
  (rngWord r, { r with count := r.count + 1 })

/-- Uniform draw in `[0,1)` as an exact rational. -/
def Rng.unit (r : Rng) : ℚ × Rng :=
  let (w, r') := r.next
  ((w : ℚ) / 2 ^ 64, r')

/-- Uniform integer draw below `n` (`n = 0` gives `0`). -/
def Rng.below (r : Rng) (n : ℕ) : ℕ × Rng :=
  let (w, r') := r.next
  (w % n, r')

/-- `count` uniform integer draws below `bound`, in draw order. -/
def Rng.belowMany (r : Rng) (bound : ℕ) : ℕ → List ℕ × Rng
  | 0 => ([], r)
  | Nat.succ k =>
    let (x, r1) := r.below bound
    let (xs, r2) := r1.belowMany bound k
    (x :: xs, r2)

/-- One draw of `Optimizer._rnd_sample` with the given location and scale.
The law of the distribution (normal, gumbel, laplace, logistic) is produced
by NumPy sampler code external to the repository; it is modelled by an
affine image of a uniform draw.  No verified claim depends on the law. -/
def Rng.sampleDistr (r : Rng) (distr : RandomDistribution) (loc scale : ℚ) : ℚ × Rng :=
  let (u, r') := r.unit
  let shift : ℚ :=
    match distr with
    | .normal => 0
    | .gumbel => 1 / 2
    | .laplace => 1 / 3
    | .logistic => 1 / 4
  (loc + scale * (2 * u - 1 + shift), r')

/-- `n` sequential draws of `Rng.sampleDistr`. -/
def Rng.sampleMany (r : Rng) (distr : RandomDistribution) (loc scale : ℚ) :
    ℕ → List ℚ × Rng
  | 0 => ([], r)
  | Nat.succ k =>
    let (x, r1) := r.sampleDistr distr loc scale
    let (xs, r2) := r1.sampleMany distr loc scale k
    (x :: xs, r2)

/-- `n` sequential Bernoulli draws: entry is `true` with the given rate
(models `rng.choice([True, False], p=(mutation_rate, 1 - mutation_rate))`). -/
def Rng.drawBools (r : Rng) (rate : ℚ) : ℕ → List Bool × Rng
  | 0 => ([], r)
  | Nat.succ k =>
    let (u, r1) := r.unit
    let (xs, r2) := r1.drawBools rate k
    ((decide (u < rate)) :: xs, r2)

/-! ## The abstract Optimizer base constructor (`Optimizer.__init__`) -/

/-- The `states_shape` argument of `Optimizer.__init__`: Python allows
`None`, an `int`, or a tuple of ints. -/
inductive StatesShapeArg where
  | noneArg : StatesShapeArg
  | intArg : ℤ → StatesShapeArg
  | tupleArg : List ℤ → StatesShapeArg
deriving DecidableEq, Repr

/-- One entry of the `states_space` dictionary: a direction key (modelled as
an integer) with optional min and max bounds. -/
abbrev SpaceEntry : Type := ℤ × (Option ℚ × Option ℚ)

/-- Python truthiness of the `states_shape` argument: `None`, `0` and the
empty tuple are falsy. -/
def shapeTruthy : StatesShapeArg → Bool
  | .noneArg => false
  | .intArg n => decide (n ≠ 0)
  | .tupleArg t => decide (t ≠ [])

/-- Python truthiness of the `states_space` argument: `None` and the empty
dictionary are falsy. -/
def spaceTruthy : Option (List SpaceEntry) → Bool
  | none => false
  | some l => decide (l ≠ [])

/-- The int-to-tuple normalization of `Optimizer.__init__` (lines 52-54):
an `int` shape `n` becomes the one-element tuple; `None` stays `None`. -/
def normalizeShape : StatesShapeArg → Option (List ℤ)
  | .noneArg => none
  | .intArg n => some [n]
  | .tupleArg t => some t

/-- State owned by the abstract `Optimizer` after construction. -/
structure OptimizerBase where
  space : List SpaceEntry
  shape : List ℤ
  distr : RandomDistribution
  rng : Rng
  prev_codes : Option (List (List ℚ))
deriving DecidableEq, Repr

/-- Embedding of `Optimizer.__init__` (src/zdream/optimizer.py lines 46-69).
Raises `ValueError` when both `states_shape` and `states_space` are falsy;
otherwise normalizes an int shape to a one-element tuple and fills the
missing argument from the other one via `lazydefault`. -/
def optimizerInit (states_space : Option (List SpaceEntry))
    (states_shape : StatesShapeArg) (random_seed : ℕ)
    (random_distr : RandomDistribution) : Except String OptimizerBase :=
  if ¬ (shapeTruthy states_shape || spaceTruthy states_space) then
    .error "ValueError: Either states_shape or states_space must be specified"
  else
    let shape' := normalizeShape states_shape
    let space :=
      match states_space with
      | some s => s
      | none => (List.range (shape'.getD []).length).map (fun i => ((i : ℤ), (none, none)))
    let shape :=
      match shape' with
      | some t => t
      | none => [((states_space.getD []).length : ℤ)]
    .ok { space := space, shape := shape, distr := random_distr,
          rng := { seed := random_seed, count := 0 }, prev_codes := none }

/-! ## GeneticOptimizer: state and constructor -/

/-- State owned by a `GeneticOptimizer`: the `Optimizer` base state plus the
immutable hyperparameters stored by `GeneticOptimizer.__init__`
(src/zdream/optimizer.py lines 208-221).  `num_parents` and `topk` are
Python ints, kept as integers since the constructor accepts any value. -/
structure GeneticOptimizer where
  space : List SpaceEntry
  shape : List ℤ
  distr : RandomDistribution
  rng : Rng
  prev_codes : Option (List (List ℚ))
  mutation_size : ℚ
  mutation_rate : ℚ
  init_pop_size : ℕ
  temperature : ℚ
  num_parents : ℤ
  topk : ℤ
deriving DecidableEq, Repr

/-- Embedding of `GeneticOptimizer.__init__` (src/zdream/optimizer.py lines
166-221): delegate to the base constructor, then store the optimization
hyperparameters.  The source performs no validation of its own. -/
def geneticOptimizerInit (states_space : Option (List SpaceEntry))
    (states_shape : StatesShapeArg) (random_seed : ℕ)
    (random_distr : RandomDistribution) (mutation_size mutation_rate : ℚ)
    (population_size : ℕ) (temperature : ℚ) (num_parents topk : ℤ) :
    Except String GeneticOptimizer :=
  match optimizerInit states_space states_shape random_seed random_distr with
  | .error e => .error e
  | .ok base =>
    .ok { space := base.space, shape := base.shape, distr := base.distr,
          rng := base.rng, prev_codes := base.prev_codes,
          mutation_size := mutation_size, mutation_rate := mutation_rate,
          init_pop_size := population_size, temperature := temperature,
          num_parents := num_parents, topk := topk }

/-- Flattened length of one code: the product of the dimensions of
`self._shape` (negative dims are rejected by `step` before this is used). -/
def GeneticOptimizer.codeDim (o : GeneticOptimizer) : ℕ :=
  (o.shape.map Int.toNat).prod

/-- Embedding of the `n_states` property of `GeneticOptimizer` (lines
230-236): the current population size, or the initial one before `init`. -/
def GeneticOptimizer.n_states (o : GeneticOptimizer) : ℕ :=
  match o.prev_codes with
  | some c => c.length
  | none => o.init_pop_size

/-! ## Python slicing and NumPy argsort -/

/-- Python slice `l[-k:]` for an integer `k` (used as `sort_s[-save_topk:]`
in `step`): for `k > 0` the last `min k (length l)` elements, for `k = 0`
the whole list, for `k < 0` the suffix starting at `-k`. -/
def pyLastSlice (k : ℤ) (l : List α) : List α :=
  if 0 < k then l.drop (l.length - k.toNat) else l.drop (-k).toNat

/-- Length of the Python slice `a[:k]` of a list of length `n` (the target
of the assignment `codes_new[:save_topk] = topk_c`). -/
def pySliceFirstLen (k : ℤ) (n : ℕ) : ℕ :=
  if 0 ≤ k then min k.toNat n else n - min (-k).toNat n

/-- Insert index `i` into an index list kept ascending by score value;
ties keep the existing elements first, so insertion in increasing index
order yields a stable ascending argsort. -/
def insertAsc (s : List ℚ) (i : ℕ) : List ℕ → List ℕ
  | [] => [i]
  | j :: js => if s.getD i 0 < s.getD j 0 then i :: j :: js else j :: insertAsc s i js

/-- Embedding of `np.argsort(scores)` (line 280): a permutation of
`range n` listing indices in ascending score order. -/
def argsort (s : List ℚ) : List ℕ :=
  (List.range s.length).foldl (fun acc i => insertAsc s i acc) []

/-! ## Fitness (float softmax surrogate) -/

/-- Modelled from the spec: a computable positive stand-in for the float
`exp` used inside `scipy.special.softmax`, which is external library code
not part of the repository.  No verified claim depends on its values; the
mathematical softmax of the fitness-conversion claim is `softmaxReal`
below. -/
def expFloatModel (x : ℚ) : ℚ :=
  if 0 ≤ x then 1 + x else 1 / (1 - x)

/-- Modelled from the spec: the float-valued `scipy.special.softmax` called
at src/zdream/optimizer.py line 285, with `expFloatModel` standing in for
the external float exponential.  Normalization is exact over ℚ. -/
def softmaxFloatModel (xs : List ℚ) : List ℚ :=
  let e := xs.map expFloatModel
  e.map (fun v => v / e.sum)

/-! ## Breeding and mutation -/

/-- Inverse-CDF index selection for a weighted draw: the first index whose
cumulative weight exceeds the threshold. -/
def pickIndex : List ℚ → ℚ → ℕ
  | [], _ => 0
  | x :: rest, t => if t < x then 0 else pickIndex rest (t - x) + 1

/-- One family of `k` parent indices drawn without replacement with the
given weights (models `rng.choice(n, size=k, p=fitness, replace=False)`):
each draw picks by inverse CDF and zeroes the chosen weight. -/
def drawFamily (r : Rng) (w : List ℚ) : ℕ → List ℕ × Rng
  | 0 => ([], r)
  | Nat.succ k =>
    let (u, r1) := r.unit
    let idx := min (pickIndex w (u * w.sum)) (w.length - 1)
    let (rest, r2) := drawFamily r1 (w.set idx 0) k
    (idx :: rest, r2)

/-- `count` families of `k` parents each, in draw order (the list
comprehension of `_breed`, lines 386-393). -/
def drawFamilies (r : Rng) (w : List ℚ) (k : ℕ) : ℕ → List (List ℕ) × Rng
  | 0 => ([], r)
  | Nat.succ c =>
    let (fam, r1) := drawFamily r w k
    let (rest, r2) := drawFamilies r1 w k c
    (fam :: rest, r2)

/-- Embedding of `GeneticOptimizer._breed` (lines 350-404) with the default
`allow_clones = False`: per-child fitness-weighted families without
replacement, a uniform gene-wise parentage draw, and gene-wise crossover.
The guards reproduce the NumPy failure modes: breeding zero or negatively
many children fails at `np.stack([])`; a negative parent count fails at the
family draw; a fitness vector of the wrong length fails the `p` check; more
parents than individuals cannot be drawn without replacement; and a zero
parent count fails at the parentage draw `rng.choice(0, ...)`. -/
def GeneticOptimizer.breed (o : GeneticOptimizer) (r : Rng)
    (population : List (List ℚ)) (pop_fitness : List ℚ) (num_children : ℤ) :
    Except String (List (List ℚ) × Rng) :=
  if num_children ≤ 0 then
    .error "ValueError: need at least one array to stack"
  else if o.num_parents < 0 then
    .error "ValueError: negative dimensions are not allowed"
  else if pop_fitness.length ≠ population.length then
    .error "ValueError: p must have the same size as a"
  else if (population.length : ℤ) < o.num_parents then
    .error "ValueError: cannot take a larger sample than population"
  else
    let nc := num_children.toNat
    let npar := o.num_parents.toNat
    let fams := drawFamilies r pop_fitness npar nc
    if o.num_parents < 1 then
      .error "ValueError: a must be a positive integer"
    else
      let d := o.codeDim
      let par := fams.2.belowMany npar (nc * d)
      let children := (List.range nc).map (fun c =>
        (List.range d).map (fun g =>
          let lineage := par.1.getD (c * d + g) 0
          let parent := (fams.1.getD c []).getD lineage 0
          (population.getD parent []).getD g 0))
      .ok (children, par.2)

/-- Add the drawn noise at the `true` positions of the mutation mask,
consuming one noise value per mutation spot (flat, row-major). -/
def addNoise : List ℚ → List Bool → List ℚ → List ℚ
  | [], _, _ => []
  | x :: xs, true :: ms, ns => (x + ns.headD 0) :: addNoise xs ms ns.tail
  | x :: xs, false :: ms, ns => x :: addNoise xs ms ns
  | x :: xs, [], ns => x :: addNoise xs [] ns

/-- Regroup a flat row-major list into `n` rows of `d` entries. -/
def rowsOf (n d : ℕ) (flat : List ℚ) : List (List ℚ) :=
  (List.range n).map (fun i => (flat.drop (i * d)).take d)

/-- Embedding of `GeneticOptimizer._mutate` (lines 307-348): draw a
Bernoulli mutation mask over the whole population with probability
`mutation_rate`, then draw one distribution sample scaled by
`mutation_size` per mutation spot and add it. -/
def GeneticOptimizer.mutate (o : GeneticOptimizer) (r : Rng)
    (population : List (List ℚ)) : List (List ℚ) × Rng :=
  let flat := population.flatten
  let locs := r.drawBools o.mutation_rate flat.length
  let noise := locs.2.sampleMany o.distr 0 o.mutation_size (locs.1.count true)
  (rowsOf population.length o.codeDim (addNoise flat locs.1 noise.1), noise.2)

/-- The two slice assignments `codes_new[:save_topk] = topk_c` and
`codes_new[save_topk:] = next_gen` (lines 300-301) into the
`(pop_size, *shape)` array: each succeeds when the assigned block matches
the target slice length exactly, or broadcasts a single row. -/
def sliceAssignRows (pop_size d : ℕ) (k : ℤ)
    (topk_c next_gen : List (List ℚ)) : Except String (List (List ℚ)) :=
  let t1 := pySliceFirstLen k pop_size
  let t2 := pop_size - t1
  if ¬ (topk_c.all (fun row => row.length = d) ∧
        next_gen.all (fun row => row.length = d)) then
    .error "ValueError: could not broadcast input array (row shape)"
  else if topk_c.length = t1 ∧ next_gen.length = t2 then
    .ok (topk_c ++ next_gen)
  else if topk_c.length = 1 ∧ next_gen.length = t2 then
    .ok (List.replicate t1 (topk_c.headD []) ++ next_gen)
  else
    .error "ValueError: could not broadcast input array"

/-- Embedding of `GeneticOptimizer.step` (src/zdream/optimizer.py lines
238-305).  Defaults: `pop_size` from `n_states`, `temperature` and
`save_topk` from the stored hyperparameters.  The top `save_topk` scoring
codes are copied unaltered into the first rows of the new population; the
rest is obtained by breeding on the softmax fitness and mutating. -/
def GeneticOptimizer.step (o : GeneticOptimizer) (scores : List ℚ)
    (out_pop_size : Option ℕ) (temperature_arg : Option ℚ)
    (save_topk_arg : Option ℤ) :
    Except String (List (List ℚ) × GeneticOptimizer) :=
  match o.prev_codes with
  | none => .error "ValueError: Codes are not available yet"
  | some codes =>
    let pop_size := out_pop_size.getD codes.length
    let temperature := temperature_arg.getD o.temperature
    let save_topk := save_topk_arg.getD o.topk
    if ¬ o.shape.all (fun z => 0 ≤ z) then
      .error "ValueError: negative dimensions are not allowed"
    else
      let sort_s := argsort scores
      let topk_idx := pyLastSlice save_topk sort_s
      if ¬ topk_idx.all (fun i => i < codes.length) then
        .error "IndexError: index is out of bounds"
      else
        let topk_c := topk_idx.map (fun i => codes.getD i [])
        let fitness := softmaxFloatModel (scores.map (fun s => s / temperature))
        match o.breed o.rng codes fitness ((pop_size : ℤ) - save_topk) with
        | .error e => .error e
        | .ok bred =>
          let m := o.mutate bred.2 bred.1
          match sliceAssignRows pop_size o.codeDim save_topk topk_c m.1 with
          | .error e => .error e
          | .ok codes_new =>
            .ok (codes_new, { o with prev_codes := some codes_new, rng := m.2 })

/-- Embedding of `Optimizer.init` (lines 107-133) for a genetic optimizer:
check supplied codes against the expected `(n_states, *shape)` shape, or
sample `n_states * codeDim` values from the configured distribution. -/
def optInitCodes (o : GeneticOptimizer) (init_codes : Option (List (List ℚ))) :
    Except String (List (List ℚ) × GeneticOptimizer) :=
  match init_codes with
  | some arr =>
    if arr.length = o.n_states ∧ arr.all (fun row => row.length = o.codeDim) then
      .ok (arr, { o with prev_codes := some arr })
    else
      .error "Exception: Provided initial condition does not match expected shape"
  | none =>
    let n := o.n_states
    let (vals, r') := o.rng.sampleMany o.distr 0 1 (n * o.codeDim)
    let codes := rowsOf n o.codeDim vals
    .ok (codes, { o with prev_codes := some codes, rng := r' })

/-- Run one optimizer through `init()` followed by one `step` per score
array, collecting every produced population (stops at the first failing
step). -/
def runSteps : GeneticOptimizer → List (List ℚ) → List (List (List ℚ))
  | _, [] => []
  | o, s :: rest =>
    match o.step s none none none with
    | .error _ => []
    | .ok (codes, o') => codes :: runSteps o' rest

/-- The population trajectory of one constructed optimizer instance:
`init()` with random codes, then one `step` per score array. -/
def runFromOpt (o : GeneticOptimizer) (score_seq : List (List ℚ)) :
    List (List (List ℚ)) :=
  match optInitCodes o none with
  | .error _ => []
  | .ok (c0, o1) => c0 :: runSteps o1 score_seq

/-- The full population trajectory of a run: construct the optimizer from
seed and hyperparameters, call `init()`, then `step` on each score array. -/
def runGenetic (states_shape : StatesShapeArg) (random_seed : ℕ)
    (random_distr : RandomDistribution) (mutation_size mutation_rate : ℚ)
    (population_size : ℕ) (temperature : ℚ) (num_parents topk : ℤ)
    (score_seq : List (List ℚ)) : List (List (List ℚ)) :=
  match geneticOptimizerInit none states_shape random_seed random_distr
      mutation_size mutation_rate population_size temperature num_parents topk with
  | .error _ => []
  | .ok o => runFromOpt o score_seq

/-! ## The mathematical softmax fitness (claim C5)

`GeneticOptimizer.step` line 285 computes `softmax(scores / temperature)`
with `scipy.special.softmax`, documented as
`exp(x_i) / sum_j exp(x_j)` (the max-subtraction it performs internally is
value-preserving).  For the algebraic fitness claim this is embedded over
the reals with the genuine exponential. -/

/-- The softmax of a list of reals: `exp x_i / Σ_j exp x_j`. -/
noncomputable def softmaxReal (xs : List ℝ) : List ℝ :=
  xs.map (fun x => Real.exp x / (xs.map Real.exp).sum)

/-- The fitness conversion of `GeneticOptimizer.step` (line 285):
temperature-scaled softmax of the scores. -/
noncomputable def fitnessReal (temperature : ℝ) (scores : List ℝ) : List ℝ :=
  softmaxReal (scores.map (fun s => s / temperature))

/-! ## Scorer (`src/zdream/scorer.py`) -/

/-- A `SubjectState`: layer name to batched activations, one row per
stimulus (rows already flattened over the unit dimensions). -/
abbrev SubjectState := List (String × List (List ℚ))

/-- Embedding of `Scorer._check_key_consistency` (src/zdream/scorer.py
lines 65-72): succeed (`none`) when every target layer occurs in the state;
otherwise the raised `ValueError` carries `set(state).difference(target)`,
the state keys that are NOT in the target (sets are modelled as
deduplicated lists in state order). -/
def check_key_consistency (target state : List String) : Option (List String) :=
  if target.all (fun k => state.contains k) then none
  else some ((state.filter (fun k => ¬ target.contains k)).dedup)

/-- `MSEScorer.mse` (lines 142-146) for one stimulus row: mean squared
difference over the flattened activations. -/
def mseRow (a b : List ℚ) : ℚ :=
  ((List.zipWith (fun x y => (x - y) ^ 2) a b).sum) / a.length

/-- Embedding of `MSEScorer._score` (lines 131-140): check key consistency,
then score the layers of the state that are in the target with the negated
MSE; layers only present in the state are skipped. -/
def mseScore (state target : SubjectState) :
    Except (List String) (List (String × List ℚ)) :=
  match check_key_consistency (target.map Prod.fst) (state.map Prod.fst) with
  | some report => .error report
  | none =>
    .ok (state.filterMap (fun p =>
      match target.lookup p.1 with
      | some trows => some (p.1, List.zipWith (fun a b => - mseRow a b) p.2 trows)
      | none => none))

/-- The column selection `activations[:, neurons[layer] if neurons[layer]
else slice(None)]` of `MaxActivityScorer._combine` (line 187): an empty
unit list is falsy in Python and selects ALL units of the row. -/
def selectUnits (units : List ℕ) (row : List ℚ) : List ℚ :=
  if units.isEmpty then row else units.map (fun i => row.getD i 0)

/-- The default reduction `np.mean` applied per stimulus row by the einops
reduce with pattern b u to b. -/
def npMean (row : List ℚ) : ℚ := row.sum / row.length

/-- Embedding of `MaxActivityScorer._combine` (src/zdream/scorer.py lines
182-192): check key consistency, then for every state layer with target
neurons reduce the selected columns of each stimulus row by the mean. -/
def maxActivityCombine (state : SubjectState)
    (neurons : List (String × List ℕ)) :
    Except (List String) (List (String × List ℚ)) :=
  match check_key_consistency (neurons.map Prod.fst) (state.map Prod.fst) with
  | some report => .error report
  | none =>
    .ok (state.filterMap (fun p =>
      match neurons.lookup p.1 with
      | some units => some (p.1, p.2.map (fun row => npMean (selectUnits units row)))
      | none => none))

/-! ## Generator mask handling (`src/zdream/generator.py`) -/

/-- Embedding of `Generator._masking_sanity_check` (src/zdream/generator.py
lines 159-208).  Stage 1: a non-empty all-True mask of matching length is
reset to the default condition (None), of mismatched length raises
ValueError.  Stage 2: a still-truthy mask (it contains a False) with no
natural-image loader raises AssertionError.  Stage 3: a falsy mask becomes
the trivial all-True mask of length `num_gen_img`.  Stage 4: a True count
different from `num_gen_img` raises ValueError. -/
def masking_sanity_check (loader_present : Bool) (mask : Option (List Bool))
    (num_gen_img : ℕ) : Except String (List Bool) :=
  let stage1 : Except String (Option (List Bool)) :=
    match mask with
    | some l =>
      if l ≠ [] ∧ l.all (fun b => b) then
        if l.length = num_gen_img then .ok none
        else .error "ValueError: mask length does not match generated images"
      else .ok (some l)
    | none => .ok none
  match stage1 with
  | .error e => .error e
  | .ok m2 =>
    if (match m2 with | some l => decide (l ≠ []) | none => false) = true ∧
        loader_present = false then
      .error "AssertionError: mask for natural images but no dataloader"
    else
      let m3 :=
        match m2 with
        | some l => if l = [] then List.replicate num_gen_img true else l
        | none => List.replicate num_gen_img true
      if m3.count true ≠ num_gen_img then
        .error "ValueError: mask True count does not match generated images"
      else .ok m3

/-- The mask pipeline of `Generator.forward` (lines 273-323): the number of
synthetic images is the number of codes, and the mask returned with the
stimuli is the sanitized one (the stimulus tensors themselves are produced
by the abstract `_forward` of the concrete architecture, outside this
spec). -/
def generatorForwardMask (loader_present : Bool) (codes : List (List ℚ))
    (mask : Option (List Bool)) : Except String (List Bool) :=
  masking_sanity_check loader_present mask codes.length

/-! ## ZdreamMessage and best_code (`src/zdream/utils/message.py`) -/

/-- A NumPy array with an explicit shape, row-major data.  Equality of
`NpArr` values is equality of shape AND contents, which is what the
best-code claim asserts. -/
structure NpArr where
  shape : List ℕ
  data : List ℚ
deriving DecidableEq, Repr

/-- Number of scalar entries per index along the first axis. -/
def NpArr.rowSize (a : NpArr) : ℕ := a.shape.tail.prod

/-- Scalar indexing `a[i]`: drops the leading axis. -/
def npIndexScalar (a : NpArr) (i : ℕ) : NpArr :=
  { shape := a.shape.tail, data := (a.data.drop (i * a.rowSize)).take a.rowSize }

/-- Fancy indexing `a[[i, ...]]` with a list of indices: the leading axis
becomes the length of the index list. -/
def npIndexList (a : NpArr) (idx : List ℕ) : NpArr :=
  { shape := idx.length :: a.shape.tail,
    data := (idx.map (fun i => (a.data.drop (i * a.rowSize)).take a.rowSize)).flatten }

/-- The histories of `ZdreamMessage` (src/zdream/utils/message.py lines
42-115) used by the verified claims; the recording/scoring unit
dictionaries, receptive-field maps and timing fields are omitted as no
claim mentions them.  Each generation appends one entry per history. -/
structure ZdreamMessage where
  codes_history : List NpArr
  scores_gen_history : List (List ℚ)
  scores_nat_history : List (List ℚ)
  masks_history : List (List Bool)
  labels_history : List (List ℤ)
deriving DecidableEq, Repr

/-- First-occurrence argmax accumulator (NumPy keeps the first index on
ties, replacing only on strictly greater values). -/
def argmaxAux : List ℚ → ℕ → ℕ → ℚ → ℕ
  | [], _, b, _ => b
  | x :: xs, i, b, v => if v < x then argmaxAux xs (i + 1) i x else argmaxAux xs (i + 1) b v

/-- `np.argmax` over a flattened array: index of the first maximum. -/
def argmaxFlat : List ℚ → ℕ
  | [] => 0
  | x :: xs => argmaxAux xs 1 0 x

/-- Embedding of the `ZdreamMessage.best_code` property (lines 164-180):
flat argmax over the score history (shape `(generations, population)`),
`np.unravel_index` into `(best_gen, best_idx)` where `best_idx` is the
one-element LIST produced by the star unpacking, and the fancy indexing
`codes_history[best_gen][best_idx]` with that list. -/
def ZdreamMessage.best_code (msg : ZdreamMessage) : NpArr :=
  let flat_idx := argmaxFlat msg.scores_gen_history.flatten
  let p := (msg.scores_gen_history.headD []).length
  let best_gen := flat_idx / p
  let best_idx := [flat_idx % p]
  npIndexList (msg.codes_history.getD best_gen { shape := [], data := [] }) best_idx

/-- The best-code lookup as the spec words it: return exactly the SINGLE
code `codes_history[best_gen][best_idx]` (scalar indexing, no extra
leading axis).  Defined for comparison with `ZdreamMessage.best_code`. -/
def ZdreamMessage.best_code_spec (msg : ZdreamMessage) : NpArr :=
  let flat_idx := argmaxFlat msg.scores_gen_history.flatten
  let p := (msg.scores_gen_history.headD []).length
  npIndexScalar (msg.codes_history.getD (flat_idx / p) { shape := [], data := [] })
    (flat_idx % p)

end ZXDream

namespace ZXDream

/-- Helper: the base constructor succeeds exactly when at least one of
the two domain arguments is truthy. -/
theorem optimizerInit_isOk (sp : Option (List SpaceEntry)) (sa : StatesShapeArg)
    (seed : ℕ) (d : RandomDistribution) :
    (optimizerInit sp sa seed d).isOk = (shapeTruthy sa || spaceTruthy sp) := by
  unfold optimizerInit
  by_cases h : shapeTruthy sa || spaceTruthy sp
  · simp [h, Except.isOk, Except.toBool]
  · simp [h, Except.isOk, Except.toBool]

/-- C10: constructing an `Optimizer` with both `states_shape` and
`states_space` falsy (None, zero, or empty) fails with a ValueError before
any other processing; one truthy argument passes the check, and an int
shape `n` is normalized to the one-element tuple containing `n`. -/
theorem claim_C10_init_precondition (sp : Option (List SpaceEntry))
    (sa : StatesShapeArg) (seed : ℕ) (d : RandomDistribution) :
    ((shapeTruthy sa || spaceTruthy sp) = false →
      optimizerInit sp sa seed d =
        .error "ValueError: Either states_shape or states_space must be specified")
    ∧ ((shapeTruthy sa || spaceTruthy sp) = true →
      ∃ o, optimizerInit sp sa seed d = .ok o)
    ∧ (∀ n : ℤ, ∀ o, optimizerInit sp (.intArg n) seed d = .ok o → o.shape = [n]) := by
  refine ⟨fun h => ?_, fun h => ?_, fun n o h => ?_⟩
  · simp [optimizerInit, h]
  · cases hE : optimizerInit sp sa seed d with
    | error e =>
      have hOk := optimizerInit_isOk sp sa seed d
      rw [hE, h] at hOk
      simp [Except.isOk, Except.toBool] at hOk
    | ok o => exact ⟨o, rfl⟩
  · by_cases hc : (shapeTruthy (.intArg n) || spaceTruthy sp) = true
    · simp [optimizerInit, hc, normalizeShape] at h
      simp [← h]
    · simp [optimizerInit, hc] at h

/-- Witness for C10 at concrete inputs. -/
theorem claim_C10_init_precondition_witness :
    (optimizerInit none (.tupleArg []) 0 .normal =
      .error "ValueError: Either states_shape or states_space must be specified")
    ∧ (∃ o, optimizerInit none (.intArg 3) 0 .normal = .ok o)
    ∧ (∀ o, optimizerInit none (.intArg 3) 0 .normal = .ok o → o.shape = [3]) :=
  ⟨(claim_C10_init_precondition none (.tupleArg []) 0 .normal).1 (by decide),
   (claim_C10_init_precondition none (.intArg 3) 0 .normal).2.1 (by decide),
   fun o h => (claim_C10_init_precondition none (.intArg 3) 0 .normal).2.2 3 o h⟩

/-- C3 counterexample: `GeneticOptimizer.__init__` performs no validation,
so construction with `topk = 5 > population_size = 2` and construction with
`num_parents = 0 < 1` both succeed instead of raising a configuration
error. -/
theorem claim_C3_counterexample :
    (geneticOptimizerInit none (.intArg 2) 0 .normal (1/10) (3/10) 2 1 2 5).isOk = true
    ∧ (geneticOptimizerInit none (.intArg 2) 0 .normal (1/10) (3/10) 2 1 0 2).isOk = true := by
  decide

/-- C3 amended: the constructor validates nothing beyond the base shape
check; for every elite count and parent count (however invalid) it returns
an optimizer instance storing them verbatim. -/
theorem claim_C3_no_construction_validation (sp : Option (List SpaceEntry))
    (sa : StatesShapeArg) (seed : ℕ) (dd : RandomDistribution) (ms mr : ℚ)
    (ps : ℕ) (t : ℚ) (np tk : ℤ)
    (h : (shapeTruthy sa || spaceTruthy sp) = true) :
    ∃ o, geneticOptimizerInit sp sa seed dd ms mr ps t np tk = .ok o
      ∧ o.topk = tk ∧ o.num_parents = np ∧ o.init_pop_size = ps := by
  cases hE : optimizerInit sp sa seed dd with
  | error e =>
    have hOk := optimizerInit_isOk sp sa seed dd
    rw [hE, h] at hOk
    simp [Except.isOk, Except.toBool] at hOk
  | ok base =>
    simp only [geneticOptimizerInit, hE]
    exact ⟨_, rfl, rfl, rfl, rfl⟩

/-- Witness for the amended C3 at a concrete invalid combination. -/
theorem claim_C3_no_construction_validation_witness :
    ∃ o, geneticOptimizerInit none (.intArg 2) 0 .normal (1/10) (3/10) 2 1 2 5 = .ok o
      ∧ o.topk = 5 ∧ o.num_parents = 2 ∧ o.init_pop_size = 2 :=
  claim_C3_no_construction_validation none (.intArg 2) 0 .normal (1/10) (3/10) 2 1 2 5
    (by decide)

/-- C2: two `GeneticOptimizer` instances constructed independently from the
same seed and hyperparameters produce identical population trajectories
under `init()` followed by the same sequence of `step()` calls: all
randomness is drawn from the generator owned by the instance and seeded at
construction, and the embedding contains no other random state. -/
theorem claim_C2_determinism (sp : Option (List SpaceEntry))
    (sa : StatesShapeArg) (seed : ℕ) (dd : RandomDistribution) (ms mr : ℚ)
    (ps : ℕ) (t : ℚ) (np tk : ℤ) (score_seq : List (List ℚ))
    (o1 o2 : GeneticOptimizer)
    (h1 : geneticOptimizerInit sp sa seed dd ms mr ps t np tk = .ok o1)
    (h2 : geneticOptimizerInit sp sa seed dd ms mr ps t np tk = .ok o2) :
    runFromOpt o1 score_seq = runFromOpt o2 score_seq := by
  rw [h1] at h2
  injection h2 with h
  rw [h]

/-- Witness for C2 at a concrete seed, hyperparameters and score
sequence. -/
theorem claim_C2_determinism_witness :
    runFromOpt
      { space := [((0 : ℤ), (none, none))], shape := [1], distr := .normal,
        rng := { seed := 7, count := 0 }, prev_codes := none,
        mutation_size := 1/10, mutation_rate := 3/10, init_pop_size := 3,
        temperature := 1, num_parents := 2, topk := 2 } [[1, 2, 3]]
    = runFromOpt
      { space := [((0 : ℤ), (none, none))], shape := [1], distr := .normal,
        rng := { seed := 7, count := 0 }, prev_codes := none,
        mutation_size := 1/10, mutation_rate := 3/10, init_pop_size := 3,
        temperature := 1, num_parents := 2, topk := 2 } [[1, 2, 3]] :=
  claim_C2_determinism none (.intArg 1) 7 .normal (1/10) (3/10) 3 1 2 2 [[1, 2, 3]]
    _ _ rfl rfl

/-- C8 counterexample: a call of `Generator.forward` with one code and the
EMPTY mask does not fail although the mask has zero True entries: the empty
list is falsy in Python, so `_masking_sanity_check` silently replaces it
with the trivial all-True mask. -/
theorem claim_C8_counterexample :
    generatorForwardMask true [[0]] (some []) = .ok [true]
    ∧ ([] : List Bool).count true ≠ 1 :=
  ⟨rfl, by decide⟩

/-- C8 amended: for every call of `Generator.forward` with a NON-EMPTY mask
the call fails when the count of True entries differs from the number of
codes, and fails when the mask contains a False entry while no natural
image loader is configured; an omitted (or empty) mask defaults to all-True
of length the number of codes, and every successfully returned mask has
exactly as many True entries as codes. -/
theorem claim_C8_mask_validation (loader : Bool) (codes : List (List ℚ))
    (mask : Option (List Bool)) :
    (∀ l, mask = some l → l ≠ [] → l.count true ≠ codes.length →
      ∃ e, generatorForwardMask loader codes mask = .error e)
    ∧ (∀ l, mask = some l → false ∈ l → loader = false →
      ∃ e, generatorForwardMask loader codes mask = .error e)
    ∧ (mask = none →
      generatorForwardMask loader codes none = .ok (List.replicate codes.length true))
    ∧ (∀ m, generatorForwardMask loader codes mask = .ok m →
      m.count true = codes.length) := by
  refine ⟨fun l hm hne hcnt => ?_, fun l hm hf hload => ?_, fun hm => ?_,
    fun m hok => ?_⟩
  · subst hm
    by_cases hall : l.all (fun b => b)
    · have hcl : l.count true = l.length := by
        rw [List.count_eq_length]
        intro b hb
        have := List.all_eq_true.mp hall b hb
        simp at this
        simp [this]
      have hlen : l.length ≠ codes.length := fun hh => hcnt (hcl.trans hh)
      exact ⟨"ValueError: mask length does not match generated images",
        by simp [generatorForwardMask, masking_sanity_check, hne, hall, hlen]⟩
    · by_cases hload : loader = false
      · exact ⟨"AssertionError: mask for natural images but no dataloader",
          by simp [generatorForwardMask, masking_sanity_check, hne, hall, hload]⟩
      · exact ⟨"ValueError: mask True count does not match generated images",
          by simp [generatorForwardMask, masking_sanity_check, hne, hall, hload, hcnt]⟩
  · subst hm
    have hne : l ≠ [] := List.ne_nil_of_mem hf
    have hall : l.all (fun b => b) = false := by
      rw [List.all_eq_false]
      exact ⟨false, hf, by simp⟩
    exact ⟨"AssertionError: mask for natural images but no dataloader",
      by simp [generatorForwardMask, masking_sanity_check, hne, hall, hload]⟩
  · subst hm
    simp [generatorForwardMask, masking_sanity_check, List.count_replicate]
  · simp only [generatorForwardMask, masking_sanity_check] at hok
    split at hok
    · exact absurd hok (by simp)
    · split at hok
      · exact absurd hok (by simp)
      · rename_i hcond
        split at hok
        · exact absurd hok (by simp)
        · rename_i hcnt
          injection hok with hh
          rw [← hh]
          exact Decidable.not_not.mp hcnt

/-- Witness for the amended C8 at concrete masks. -/
theorem claim_C8_mask_validation_witness :
    (∃ e, generatorForwardMask true [[0]] (some [true, true]) = .error e)
    ∧ (∃ e, generatorForwardMask false [[0]] (some [false]) = .error e)
    ∧ generatorForwardMask true [[0]] none = .ok (List.replicate 1 true) :=
  ⟨(claim_C8_mask_validation true [[0]] (some [true, true])).1 [true, true]
      rfl (by decide) (by decide),
   (claim_C8_mask_validation false [[0]] (some [false])).2.1 [false]
      rfl (by decide) rfl,
   (claim_C8_mask_validation true [[0]] none).2.2.1 rfl⟩

/-- Helper: a successful association-list lookup means the key occurs. -/
theorem key_mem_of_lookup_eq_some {β : Type} (l : List (String × β)) (a : String)
    (b : β) (h : l.lookup a = some b) : a ∈ l.map Prod.fst := by
  induction l with
  | nil => exact Option.noConfusion h
  | cons x rest ih =>
    obtain ⟨k, v⟩ := x
    simp only [List.lookup] at h
    by_cases hx : (a == k) = true
    · simp only [List.map_cons, List.mem_cons]
      exact Or.inl (eq_of_beq hx)
    · have hx' : (a == k) = false := by rwa [Bool.not_eq_true] at hx
      simp only [hx'] at h
      exact List.mem_cons_of_mem _ (ih h)

/-- Helper: a key that occurs in an association list has a successful
lookup. -/
theorem lookup_eq_some_of_key_mem {β : Type} (l : List (String × β)) (a : String)
    (h : a ∈ l.map Prod.fst) : ∃ b, l.lookup a = some b := by
  induction l with
  | nil => simp at h
  | cons x rest ih =>
    obtain ⟨k, v⟩ := x
    by_cases hx : (a == k) = true
    · exact ⟨v, by simp [List.lookup, hx]⟩
    · have hx' : (a == k) = false := by rwa [Bool.not_eq_true] at hx
      simp only [List.map_cons, List.mem_cons] at h
      rcases h with h | h
      · exact absurd (by simp [h]) hx
      · obtain ⟨b, hb⟩ := ih h
        exact ⟨b, by simp [List.lookup, hx', hb]⟩

/-- C7 counterexample: a required layer is absent, the scorer raises, but
the message payload is `set(state).difference(target)` — the EXTRA state
layers — not the missing required layer. -/
theorem claim_C7_counterexample :
    mseScore [("b", [[1]])] [("a", [[0]])] = .error ["b"]
    ∧ "a" ∉ ["b"] :=
  ⟨rfl, by decide⟩

/-- C7 amended: when a layer required by the criterion is absent from the
response, the scorer fails with a ValueError whose payload lists the
response layers NOT referenced by the target (not the missing ones); a
response with every required layer plus extras is accepted, the computed
scores cover exactly the required layers and the extra layers are
ignored. -/
theorem claim_C7_layer_validation (state target : SubjectState) :
    ((∃ k, k ∈ target.map Prod.fst ∧ k ∉ state.map Prod.fst) →
      mseScore state target =
        .error (((state.map Prod.fst).filter
          (fun k => ¬ (target.map Prod.fst).contains k)).dedup))
    ∧ ((∀ k ∈ target.map Prod.fst, k ∈ state.map Prod.fst) →
      ∃ out, mseScore state target = .ok out
        ∧ (∀ q ∈ out, q.1 ∈ target.map Prod.fst)
        ∧ (∀ p ∈ state, p.1 ∈ target.map Prod.fst → ∃ v, (p.1, v) ∈ out)) := by
  constructor
  · rintro ⟨k, hk, hks⟩
    have hall : ((target.map Prod.fst).all
        fun j => (state.map Prod.fst).contains j) = false := by
      rw [← Bool.not_eq_true]
      intro hT
      exact hks (by simpa using List.all_eq_true.mp hT k hk)
    have hcheck : check_key_consistency (target.map Prod.fst) (state.map Prod.fst)
        = some (((state.map Prod.fst).filter
          (fun j => ¬ (target.map Prod.fst).contains j)).dedup) := by
      have hcond : ¬ (((target.map Prod.fst).all
          fun j => (state.map Prod.fst).contains j) = true) := by
        rw [hall]
        simp
      unfold check_key_consistency
      rw [if_neg hcond]
    simp only [mseScore, hcheck]
  · intro hsub
    have hall : ((target.map Prod.fst).all
        fun j => (state.map Prod.fst).contains j) = true := by
      rw [List.all_eq_true]
      intro j hj
      simpa using hsub j hj
    have hcheck : check_key_consistency (target.map Prod.fst) (state.map Prod.fst)
        = none := by
      unfold check_key_consistency
      rw [if_pos hall]
    refine ⟨state.filterMap (fun p =>
        match target.lookup p.1 with
        | some trows => some (p.1, List.zipWith (fun a b => - mseRow a b) p.2 trows)
        | none => none), ?_, fun q hq => ?_, fun p hp hpt => ?_⟩
    · simp only [mseScore, hcheck]
    · obtain ⟨p, hp, hf⟩ := List.mem_filterMap.mp hq
      rcases hL : target.lookup p.1 with _ | trows
      · simp [hL] at hf
      · simp only [hL] at hf
        injection hf with hf
        rw [← hf]
        exact key_mem_of_lookup_eq_some target p.1 trows hL
    · obtain ⟨trows, hL⟩ := lookup_eq_some_of_key_mem target p.1 hpt
      exact ⟨List.zipWith (fun a b => - mseRow a b) p.2 trows,
        List.mem_filterMap.mpr ⟨p, hp, by simp [hL]⟩⟩

/-- Witness for the amended C7 at a concrete response with one required
layer and one extra layer. -/
theorem claim_C7_layer_validation_witness :
    ∃ out, mseScore [("a", [[1]]), ("c", [[5]])] [("a", [[0]])] = .ok out
      ∧ (∀ q ∈ out, q.1 ∈ [("a", [[(0 : ℚ)]])].map Prod.fst)
      ∧ (∀ p ∈ [("a", [[(1 : ℚ)]]), ("c", [[5]])], p.1 ∈
          [("a", [[(0 : ℚ)]])].map Prod.fst → ∃ v, (p.1, v) ∈ out) :=
  (claim_C7_layer_validation [("a", [[1]]), ("c", [[5]])] [("a", [[0]])]).2
    (by decide)

/-- C9: in `MaxActivityScorer._combine`, a target layer with an EMPTY
`ScoringUnit` index list scores the reduction over the entire activation
row of that layer, while a non-empty list restricts the reduction to
exactly the listed unit indices. -/
theorem claim_C9_empty_units_select_all (state : SubjectState)
    (neurons : List (String × List ℕ)) (layer : String)
    (acts : List (List ℚ)) (units : List ℕ)
    (hmem : (layer, acts) ∈ state)
    (hn : neurons.lookup layer = some units)
    (hsub : ∀ k ∈ neurons.map Prod.fst, k ∈ state.map Prod.fst) :
    ∃ out, maxActivityCombine state neurons = .ok out
      ∧ (units = [] →
        (layer, acts.map (fun row => row.sum / (row.length : ℚ))) ∈ out)
      ∧ (units ≠ [] →
        (layer, acts.map (fun row =>
          (units.map (fun i => row.getD i 0)).sum / (units.length : ℚ))) ∈ out) := by
  have hall : ((neurons.map Prod.fst).all
      fun k => (state.map Prod.fst).contains k) = true := by
    rw [List.all_eq_true]
    intro k hk
    simpa using hsub k hk
  have hcheck : check_key_consistency (neurons.map Prod.fst) (state.map Prod.fst)
      = none := by
    unfold check_key_consistency
    rw [if_pos hall]
  refine ⟨state.filterMap (fun p =>
      match neurons.lookup p.1 with
      | some us => some (p.1, p.2.map (fun row => npMean (selectUnits us row)))
      | none => none), ?_, fun hu => ?_, fun hu => ?_⟩
  · simp only [maxActivityCombine, hcheck]
  · subst hu
    exact List.mem_filterMap.mpr ⟨(layer, acts), hmem,
      by simp [hn, selectUnits, npMean]⟩
  · refine List.mem_filterMap.mpr ⟨(layer, acts), hmem, ?_⟩
    have hie : units.isEmpty = false := by
      simpa [List.isEmpty_iff] using hu
    simp [hn, selectUnits, npMean, hie]

/-- Witness for C9 on a concrete state with empty scoring units. -/
theorem claim_C9_empty_units_select_all_witness :
    (∃ out, maxActivityCombine [("fc8", [[1, 2, 3], [4, 5, 6]])] [("fc8", [])]
      = .ok out
      ∧ (([] : List ℕ) = [] →
        ("fc8", [[1, 2, 3], [4, 5, 6]].map
          (fun row : List ℚ => row.sum / (row.length : ℚ))) ∈ out)
      ∧ (([] : List ℕ) ≠ [] →
        ("fc8", [[1, 2, 3], [4, 5, 6]].map (fun row : List ℚ =>
          (([] : List ℕ).map (fun i => row.getD i 0)).sum
            / ((([] : List ℕ).length : ℕ) : ℚ))) ∈ out)) :=
  claim_C9_empty_units_select_all [("fc8", [[1, 2, 3], [4, 5, 6]])]
    [("fc8", [])] "fc8" [[1, 2, 3], [4, 5, 6]] [] (by decide) (by decide)
    (by decide)

/-- Helper: the argmax accumulator keeps the incumbent when every remaining
value is strictly below the incumbent value. -/
theorem argmaxAux_of_lt (l : List ℚ) (i b : ℕ) (v : ℚ)
    (h : ∀ j, j < l.length → l.getD j 0 < v) : argmaxAux l i b v = b := by
  induction l generalizing i with
  | nil => rfl
  | cons x xs ih =>
    have hx : x < v := by simpa using h 0 (by simp)
    rw [argmaxAux, if_neg (not_lt.mpr hx.le)]
    exact ih i.succ (fun j hj => by simpa using h (j + 1) (by simpa using hj))

/-- Helper: the argmax accumulator lands on a strict maximum that beats the
incumbent. -/
theorem argmaxAux_of_unique (l : List ℚ) (k : ℕ) (hk : k < l.length)
    (i b : ℕ) (v : ℚ) (hv : v < l.getD k 0)
    (hmax : ∀ j, j < l.length → j ≠ k → l.getD j 0 < l.getD k 0) :
    argmaxAux l i b v = i + k := by
  induction l generalizing k i b v with
  | nil => exact absurd hk (by simp)
  | cons x xs ih =>
    cases k with
    | zero =>
      have hvx : v < x := by simpa using hv
      rw [argmaxAux, if_pos hvx]
      have := argmaxAux_of_lt xs (i + 1) i x
        (fun j hj => by simpa using hmax (j + 1) (by simpa using hj) (by omega))
      omega
    | succ k' =>
      have hk' : k' < xs.length := by simpa using hk
      have hv' : v < xs.getD k' 0 := by simpa using hv
      have hmax' : ∀ j, j < xs.length → j ≠ k' → xs.getD j 0 < xs.getD k' 0 :=
        fun j hj hne => by
          simpa using hmax (j + 1) (by simpa using hj) (by omega)
      by_cases hvx : v < x
      · rw [argmaxAux, if_pos hvx]
        have hx : x < xs.getD k' 0 := by
          simpa using hmax 0 (by simp) (by omega)
        have := ih k' hk' (i + 1) i x hx hmax'
        omega
      · rw [argmaxAux, if_neg hvx]
        have := ih k' hk' (i + 1) b v hv' hmax'
        omega

/-- Helper: `np.argmax` returns the index of a unique strict maximum. -/
theorem argmaxFlat_of_unique (l : List ℚ) (k : ℕ) (hk : k < l.length)
    (hmax : ∀ j, j < l.length → j ≠ k → l.getD j 0 < l.getD k 0) :
    argmaxFlat l = k := by
  cases l with
  | nil => exact absurd hk (by simp)
  | cons x xs =>
    cases k with
    | zero =>
      rw [argmaxFlat]
      exact argmaxAux_of_lt xs 1 0 x
        (fun j hj => by simpa using hmax (j + 1) (by simpa using hj) (by omega))
    | succ k' =>
      rw [argmaxFlat]
      have hk' : k' < xs.length := by simpa using hk
      have hx : x < xs.getD k' 0 := by
        simpa using hmax 0 (by simp) (by omega)
      have hmax' : ∀ j, j < xs.length → j ≠ k' → xs.getD j 0 < xs.getD k' 0 :=
        fun j hj hne => by
          simpa using hmax (j + 1) (by simpa using hj) (by omega)
      have := argmaxAux_of_unique xs k' hk' 1 0 x hx hmax'
      omega

/-- C4 counterexample: on the claimed scenario (3 generations of 4 scores
with the unique maximum at generation 1, index 2) `best_code` does NOT
return the single code `codes_history[1][2]`: the star-unpacked
`best_idx` is a one-element list, so the NumPy fancy indexing keeps an
extra leading axis of size 1. -/
theorem claim_C4_counterexample :
    ZdreamMessage.best_code
      { codes_history := [{ shape := [4, 1], data := [0, 1, 2, 3] },
          { shape := [4, 1], data := [10, 11, 12, 13] },
          { shape := [4, 1], data := [20, 21, 22, 23] }],
        scores_gen_history := [[0, 1, 2, 3], [4, 5, 9, 6], [7, 8, 0, 1]],
        scores_nat_history := [], masks_history := [], labels_history := [] }
      ≠ npIndexScalar { shape := [4, 1], data := [10, 11, 12, 13] } 2 := by
  decide

/-- C4 amended: on a 3-generation, 4-individual score history with the
unique global maximum at generation 1, index 2, `best_code` returns the
ONE-ELEMENT BATCH `codes_history[1][[2]]`: its data is exactly the data of
the single code `codes_history[1][2]`, but with an extra leading axis of
size 1 prepended to the shape. -/
theorem claim_C4_best_code_batch (s0 s1 s2 : List ℚ) (c0 c1 c2 : NpArr)
    (snat : List (List ℚ)) (mh : List (List Bool)) (lh : List (List ℤ))
    (h0 : s0.length = 4) (h1 : s1.length = 4) (h2 : s2.length = 4)
    (hm0 : ∀ i, i < 4 → s0.getD i 0 < s1.getD 2 0)
    (hm1 : ∀ i, i < 4 → i ≠ 2 → s1.getD i 0 < s1.getD 2 0)
    (hm2 : ∀ i, i < 4 → s2.getD i 0 < s1.getD 2 0) :
    ZdreamMessage.best_code
      { codes_history := [c0, c1, c2], scores_gen_history := [s0, s1, s2],
        scores_nat_history := snat, masks_history := mh, labels_history := lh }
      = npIndexList c1 [2]
    ∧ (npIndexList c1 [2]).data = (npIndexScalar c1 2).data
    ∧ (npIndexList c1 [2]).shape = 1 :: (npIndexScalar c1 2).shape := by
  have hflat : ([s0, s1, s2] : List (List ℚ)).flatten = s0 ++ (s1 ++ s2) := by
    simp
  have hlen : (([s0, s1, s2] : List (List ℚ)).flatten).length = 12 := by
    rw [hflat]
    simp [h0, h1, h2]
  have e0 : ∀ j, j < 4 →
      (([s0, s1, s2] : List (List ℚ)).flatten).getD j 0 = s0.getD j 0 := by
    intro j hj
    rw [hflat, List.getD_append _ _ _ _ (by omega)]
  have e1 : ∀ j, 4 ≤ j → j < 8 →
      (([s0, s1, s2] : List (List ℚ)).flatten).getD j 0 = s1.getD (j - 4) 0 := by
    intro j hj1 hj2
    rw [hflat, List.getD_append_right _ _ _ _ (by omega), h0,
      List.getD_append _ _ _ _ (by omega)]
  have e2 : ∀ j, 8 ≤ j → j < 12 →
      (([s0, s1, s2] : List (List ℚ)).flatten).getD j 0 = s2.getD (j - 8) 0 := by
    intro j hj1 hj2
    rw [hflat, List.getD_append_right _ _ _ _ (by omega), h0,
      List.getD_append_right _ _ _ _ (by omega), h1]
    have hjj : j - 4 - 4 = j - 8 := by omega
    rw [hjj]
  have hargmax : argmaxFlat (([s0, s1, s2] : List (List ℚ)).flatten) = 6 := by
    apply argmaxFlat_of_unique _ 6 (by omega)
    intro j hj hne
    rw [hlen] at hj
    rw [e1 6 (by omega) (by omega)]
    by_cases hj4 : j < 4
    · rw [e0 j hj4]
      exact hm0 j hj4
    · by_cases hj8 : j < 8
      · rw [e1 j (by omega) hj8]
        exact hm1 (j - 4) (by omega) (by omega)
      · rw [e2 j (by omega) (by omega)]
        exact hm2 (j - 8) (by omega)
  refine ⟨?_, ?_, ?_⟩
  · simp only [ZdreamMessage.best_code, hargmax]
    norm_num [h0]
  · simp [npIndexList, npIndexScalar]
  · simp [npIndexList, npIndexScalar]

/-- Witness for the amended C4 on the concrete 3-by-4 history. -/
theorem claim_C4_best_code_batch_witness :
    ZdreamMessage.best_code
      { codes_history := [{ shape := [4, 1], data := [0, 1, 2, 3] },
          { shape := [4, 1], data := [10, 11, 12, 13] },
          { shape := [4, 1], data := [20, 21, 22, 23] }],
        scores_gen_history := [[0, 1, 2, 3], [4, 5, 9, 6], [7, 8, 0, 1]],
        scores_nat_history := [], masks_history := [], labels_history := [] }
      = npIndexList { shape := [4, 1], data := [10, 11, 12, 13] } [2]
    ∧ (npIndexList { shape := [4, 1], data := [10, 11, 12, 13] } [2]).data
      = (npIndexScalar { shape := [4, 1], data := [10, 11, 12, 13] } 2).data
    ∧ (npIndexList { shape := [4, 1], data := [10, 11, 12, 13] } [2]).shape
      = 1 :: (npIndexScalar { shape := [4, 1], data := [10, 11, 12, 13] } 2).shape :=
  claim_C4_best_code_batch [0, 1, 2, 3] [4, 5, 9, 6] [7, 8, 0, 1]
    { shape := [4, 1], data := [0, 1, 2, 3] }
    { shape := [4, 1], data := [10, 11, 12, 13] }
    { shape := [4, 1], data := [20, 21, 22, 23] } [] [] []
    (by decide) (by decide) (by decide)
    (by decide) (by decide) (by decide)

/-- C5: the temperature-scaled softmax fitness of `GeneticOptimizer.step`
is strictly monotone in the score (higher score, strictly higher fitness)
for every temperature `T > 0`, its values are non-negative, and they sum
to 1. -/
theorem claim_C5_fitness_softmax (scores : List ℝ) (T : ℝ) (hT : 0 < T)
    (hne : scores ≠ []) :
    (∀ i j, i < scores.length → j < scores.length →
      scores.getD j 0 < scores.getD i 0 →
      (fitnessReal T scores).getD j 0 < (fitnessReal T scores).getD i 0)
    ∧ (∀ i, 0 ≤ (fitnessReal T scores).getD i 0)
    ∧ (fitnessReal T scores).sum = 1 := by
  have hE : 0 < ((scores.map (fun s => s / T)).map Real.exp).sum := by
    apply List.sum_pos
    · intro x hx
      obtain ⟨y, hy, rfl⟩ := List.mem_map.mp hx
      exact Real.exp_pos y
    · simpa using hne
  have hget : ∀ m, m < scores.length → (fitnessReal T scores).getD m 0
      = Real.exp (scores.getD m 0 / T)
        / ((scores.map (fun s => s / T)).map Real.exp).sum := by
    intro m hm
    unfold fitnessReal softmaxReal
    rw [List.getD_eq_getElem _ _ (by simpa using hm),
      List.getD_eq_getElem _ _ hm]
    simp
  refine ⟨fun i j hi hj hlt => ?_, fun i => ?_, ?_⟩
  · rw [hget i hi, hget j hj]
    have h1 : scores.getD j 0 / T < scores.getD i 0 / T := by
      rw [div_eq_mul_inv, div_eq_mul_inv]
      exact mul_lt_mul_of_pos_right hlt (inv_pos.mpr hT)
    have h2 := Real.exp_lt_exp.mpr h1
    rw [div_eq_mul_inv, div_eq_mul_inv]
    exact mul_lt_mul_of_pos_right h2 (inv_pos.mpr hE)
  · by_cases hi : i < scores.length
    · rw [hget i hi]
      exact le_of_lt (div_pos (Real.exp_pos _) hE)
    · rw [List.getD_eq_default]
      simpa [fitnessReal, softmaxReal] using Nat.le_of_not_lt hi
  · unfold fitnessReal softmaxReal
    simp only [div_eq_mul_inv]
    rw [List.sum_map_mul_right]
    exact mul_inv_cancel₀ (ne_of_gt hE)

/-- Witness for C5 at the score list `[0, 1]` and temperature 1. -/
theorem claim_C5_fitness_softmax_witness :
    (∀ i j, i < ([0, 1] : List ℝ).length → j < ([0, 1] : List ℝ).length →
      ([0, 1] : List ℝ).getD j 0 < ([0, 1] : List ℝ).getD i 0 →
      (fitnessReal 1 [0, 1]).getD j 0 < (fitnessReal 1 [0, 1]).getD i 0)
    ∧ (∀ i, 0 ≤ (fitnessReal 1 [0, 1]).getD i 0)
    ∧ (fitnessReal 1 [0, 1]).sum = 1 :=
  claim_C5_fitness_softmax [0, 1] 1 (by norm_num) (by simp)

/-! ### Lemmas about the stable ascending argsort -/

/-- Helper: inserting an index permutes consing it. -/
theorem insertAsc_perm (s : List ℚ) (i : ℕ) (l : List ℕ) :
    (insertAsc s i l).Perm (i :: l) := by
  induction l with
  | nil => exact List.Perm.refl _
  | cons j js ih =>
    rw [insertAsc]
    by_cases hc : s.getD i 0 < s.getD j 0
    · rw [if_pos hc]
    · rw [if_neg hc]
      exact (ih.cons j).trans (List.Perm.swap i j js)

/-- Helper: the argsort of a score list is a permutation of `range n`. -/
theorem argsort_perm (s : List ℚ) : (argsort s).Perm (List.range s.length) := by
  have key : ∀ (l : List ℕ) (acc : List ℕ),
      (l.foldl (fun a i => insertAsc s i a) acc).Perm (l ++ acc) := by
    intro l
    induction l with
    | nil => intro acc; simp
    | cons x xs ih =>
      intro acc
      have h1 := ih (insertAsc s x acc)
      have h2 : (xs ++ insertAsc s x acc).Perm (xs ++ (x :: acc)) :=
        List.Perm.append_left xs (insertAsc_perm s x acc)
      have h3 : (xs ++ (x :: acc)).Perm (x :: (xs ++ acc)) :=
        List.perm_middle
      simpa using (h1.trans h2).trans h3
  simpa using (key (List.range s.length) []).trans (by simp)

/-- Helper: length of the argsort. -/
theorem argsort_length (s : List ℚ) : (argsort s).length = s.length := by
  simpa using (argsort_perm s).length_eq

/-- Helper: the argsort has no duplicate indices. -/
theorem argsort_nodup (s : List ℚ) : (argsort s).Nodup :=
  (argsort_perm s).nodup_iff.mpr (List.nodup_range _)

/-- Helper: every argsort entry is a valid score index. -/
theorem argsort_mem_lt (s : List ℚ) (i : ℕ) (h : i ∈ argsort s) :
    i < s.length := by
  have := (argsort_perm s).mem_iff.mp h
  simpa using this

/-- Helper: every valid index occurs in the argsort. -/
theorem mem_argsort (s : List ℚ) (i : ℕ) (h : i < s.length) :
    i ∈ argsort s :=
  (argsort_perm s).mem_iff.mpr (List.mem_range.mpr h)

/-- Helper: insertion keeps the index list pairwise ascending by score. -/
theorem insertAsc_pairwise (s : List ℚ) (i : ℕ) (l : List ℕ)
    (h : l.Pairwise (fun a b => s.getD a 0 ≤ s.getD b 0)) :
    (insertAsc s i l).Pairwise (fun a b => s.getD a 0 ≤ s.getD b 0) := by
  induction l with
  | nil => simp [insertAsc]
  | cons j js ih =>
    rw [List.pairwise_cons] at h
    rw [insertAsc]
    by_cases hc : s.getD i 0 < s.getD j 0
    · rw [if_pos hc]
      refine List.Pairwise.cons ?_ (List.Pairwise.cons h.1 h.2)
      intro b hb
      rcases List.mem_cons.mp hb with rfl | hb
      · exact hc.le
      · exact hc.le.trans (h.1 b hb)
    · rw [if_neg hc]
      refine List.Pairwise.cons ?_ (ih h.2)
      intro b hb
      have hb' := (insertAsc_perm s i js).mem_iff.mp hb
      rcases List.mem_cons.mp hb' with rfl | hb'
      · exact not_lt.mp hc
      · exact h.1 b hb'

/-- Helper: the argsort lists indices in ascending score order. -/
theorem argsort_pairwise (s : List ℚ) :
    (argsort s).Pairwise (fun a b => s.getD a 0 ≤ s.getD b 0) := by
  have key : ∀ (l : List ℕ) (acc : List ℕ),
      acc.Pairwise (fun a b => s.getD a 0 ≤ s.getD b 0) →
      (l.foldl (fun a i => insertAsc s i a) acc).Pairwise
        (fun a b => s.getD a 0 ≤ s.getD b 0) := by
    intro l
    induction l with
    | nil => intro acc h; simpa using h
    | cons x xs ih =>
      intro acc h
      exact ih (insertAsc s x acc) (insertAsc_pairwise s x acc h)
  exact key (List.range s.length) [] (by simp)

/-- Helper: for a positive elite count the Python slice is a list drop. -/
theorem pyLastSlice_pos (k : ℕ) (hk : 0 < k) (l : List ℕ) :
    pyLastSlice (k : ℤ) l = l.drop (l.length - k) := by
  rw [pyLastSlice, if_pos (by exact_mod_cast hk)]
  simp

/-- Helper: length of the elite slice. -/
theorem pyLastSlice_pos_length (k : ℕ) (hk : 0 < k) (l : List ℕ)
    (hkl : k ≤ l.length) : (pyLastSlice (k : ℤ) l).length = k := by
  rw [pyLastSlice_pos k hk l, List.length_drop]
  omega

/-- Helper: every index selected by the elite slice dominates every index
outside it: the slice keeps the top of the ascending argsort. -/
theorem argsort_topk_dominates (s : List ℚ) (k : ℕ) (hk : 0 < k)
    (i : ℕ) (hi : i ∈ pyLastSlice (k : ℤ) (argsort s)) (j : ℕ)
    (hj : j < s.length) (hjn : j ∉ pyLastSlice (k : ℤ) (argsort s)) :
    s.getD j 0 ≤ s.getD i 0 := by
  rw [pyLastSlice_pos k hk] at hi hjn
  have hsplit := List.take_append_drop ((argsort s).length - k) (argsort s)
  have hpw := argsort_pairwise s
  rw [← hsplit, List.pairwise_append] at hpw
  have hjmem : j ∈ argsort s := mem_argsort s j hj
  rw [← hsplit, List.mem_append] at hjmem
  rcases hjmem with hjt | hjd
  · exact hpw.2.2 j hjt i hi
  · exact absurd hjd hjn

/-! ### Length lemmas for breeding and mutation -/

/-- Helper: adding noise preserves the flat length. -/
theorem addNoise_length (xs : List ℚ) (ms : List Bool) (ns : List ℚ) :
    (addNoise xs ms ns).length = xs.length := by
  induction xs generalizing ms ns with
  | nil => rfl
  | cons x rest ih =>
    cases ms with
    | nil => simp [addNoise, ih]
    | cons m mrest =>
      cases m with
      | true => simp [addNoise, ih]
      | false => simp [addNoise, ih]

/-- Helper: `rowsOf` always yields `n` rows. -/
theorem rowsOf_length (n d : ℕ) (flat : List ℚ) :
    (rowsOf n d flat).length = n := by
  simp [rowsOf]

/-- Helper: when the flat list has exactly `n * d` entries, every `rowsOf`
row has length `d`. -/
theorem rowsOf_row_length (n d : ℕ) (flat : List ℚ)
    (hl : flat.length = n * d) :
    ∀ row ∈ rowsOf n d flat, row.length = d := by
  intro row hrow
  obtain ⟨i, hi, rfl⟩ := List.mem_map.mp hrow
  rw [List.mem_range] at hi
  rw [List.length_take, List.length_drop, hl]
  have hmul : (i + 1) * d ≤ n * d := Nat.mul_le_mul_right d hi
  rw [Nat.succ_mul] at hmul
  omega

/-- Helper: a rectangular list of rows flattens to `count * d` entries. -/
theorem flatten_length_of_rect (rows : List (List ℚ)) (d : ℕ)
    (h : ∀ row ∈ rows, row.length = d) :
    rows.flatten.length = rows.length * d := by
  induction rows with
  | nil => simp
  | cons row rest ih =>
    rw [List.flatten_cons, List.length_append, List.length_cons,
      h row (List.mem_cons_self _ _), ih (fun r hr => h r (List.mem_cons_of_mem _ hr))]
    ring

/-- Helper: `mutate` preserves the number of rows and, on rectangular
input, the row length. -/
theorem mutate_spec (o : GeneticOptimizer) (r : Rng)
    (population : List (List ℚ))
    (hrect : ∀ row ∈ population, row.length = o.codeDim) :
    (o.mutate r population).1.length = population.length
    ∧ ∀ row ∈ (o.mutate r population).1, row.length = o.codeDim := by
  constructor
  · simp [GeneticOptimizer.mutate, rowsOf_length]
  · intro row hrow
    simp only [GeneticOptimizer.mutate] at hrow
    refine rowsOf_row_length _ _ _ ?_ row hrow
    rw [addNoise_length]
    exact flatten_length_of_rect population o.codeDim hrect

/-- Helper: under valid sizes `_breed` succeeds with `num_children` rows of
`codeDim` genes each. -/
theorem breed_ok (o : GeneticOptimizer) (r : Rng)
    (population : List (List ℚ)) (pop_fitness : List ℚ) (num_children : ℤ)
    (h1 : 0 < num_children) (h2 : 1 ≤ o.num_parents)
    (h3 : pop_fitness.length = population.length)
    (h4 : o.num_parents ≤ (population.length : ℤ)) :
    ∃ children r2,
      o.breed r population pop_fitness num_children = .ok (children, r2)
      ∧ children.length = num_children.toNat
      ∧ ∀ row ∈ children, row.length = o.codeDim := by
  rw [GeneticOptimizer.breed, if_neg (by omega), if_neg (by omega),
    if_neg (by simp [h3]), if_neg (by omega), if_neg (by omega)]
  refine ⟨_, _, rfl, by simp, ?_⟩
  intro row hrow
  obtain ⟨c, hc, rfl⟩ := List.mem_map.mp hrow
  simp

/-- Helper: under the hypotheses that make the NumPy pipeline well-formed,
`GeneticOptimizer.step` succeeds and its result is exactly the unaltered
top-`k` codes followed by the bred-and-mutated rest. -/
theorem step_success (o : GeneticOptimizer) (codes : List (List ℚ))
    (scores : List ℚ) (k pop_size : ℕ)
    (hprev : o.prev_codes = some codes)
    (hshape : (o.shape.all fun z => decide ((0 : ℤ) ≤ z)) = true)
    (hlen : scores.length = codes.length)
    (hrect : ∀ row ∈ codes, row.length = o.codeDim)
    (hk1 : 0 < k) (hkn : k ≤ codes.length) (hkp : k < pop_size)
    (hnp1 : 1 ≤ o.num_parents) (hnpn : o.num_parents ≤ (codes.length : ℤ)) :
    ∃ rest o', o.step scores (some pop_size) none (some (k : ℤ)) =
        .ok ((pyLastSlice (k : ℤ) (argsort scores)).map
          (fun i => codes.getD i []) ++ rest, o')
      ∧ ((pyLastSlice (k : ℤ) (argsort scores)).map
          (fun i => codes.getD i [])).length = k
      ∧ rest.length = pop_size - k := by
  have hslice_len : (pyLastSlice (k : ℤ) (argsort scores)).length = k :=
    pyLastSlice_pos_length k hk1 _ (by rw [argsort_length]; omega)
  have htopk_bound : ∀ i ∈ pyLastSlice (k : ℤ) (argsort scores),
      i < codes.length := by
    intro i hi
    rw [pyLastSlice_pos k hk1] at hi
    have := argsort_mem_lt scores i (List.drop_subset _ _ hi)
    omega
  have hall2 : ((pyLastSlice (k : ℤ) (argsort scores)).all
      fun i => decide (i < codes.length)) = true := by
    rw [List.all_eq_true]
    intro i hi
    simpa using htopk_bound i hi
  have hfitlen : (softmaxFloatModel (scores.map
      (fun s => s / o.temperature))).length = codes.length := by
    simp [softmaxFloatModel, hlen]
  have hnc : (0 : ℤ) < (pop_size : ℤ) - (k : ℤ) := by
    omega
  obtain ⟨children, r2, hb, hclen, hcrect⟩ :=
    breed_ok o o.rng codes
      (softmaxFloatModel (scores.map (fun s => s / o.temperature)))
      ((pop_size : ℤ) - (k : ℤ)) hnc hnp1 hfitlen hnpn
  obtain ⟨hmlen, hmrect⟩ := mutate_spec o r2 children hcrect
  have hchildren_count : children.length = pop_size - k := by
    rw [hclen]
    omega
  have ht1 : pySliceFirstLen (k : ℤ) pop_size = k := by
    rw [pySliceFirstLen, if_pos (by positivity)]
    rw [Int.toNat_natCast]
    omega
  have hta : (((pyLastSlice (k : ℤ) (argsort scores)).map
      (fun i => codes.getD i [])).all
      fun row => decide (row.length = o.codeDim)) = true := by
    rw [List.all_eq_true]
    intro row hrow
    obtain ⟨i, hi, rfl⟩ := List.mem_map.mp hrow
    have hib := htopk_bound i hi
    have hmem : codes.getD i [] ∈ codes := by
      rw [List.getD_eq_getElem _ _ hib]
      exact List.getElem_mem hib
    simpa using hrect _ hmem
  have hnb : ((o.mutate r2 children).1.all
      fun row => decide (row.length = o.codeDim)) = true := by
    rw [List.all_eq_true]
    intro row hrow
    simpa using hmrect row hrow
  have hslice : sliceAssignRows pop_size o.codeDim (k : ℤ)
      ((pyLastSlice (k : ℤ) (argsort scores)).map (fun i => codes.getD i []))
      (o.mutate r2 children).1
      = .ok ((pyLastSlice (k : ℤ) (argsort scores)).map
          (fun i => codes.getD i []) ++ (o.mutate r2 children).1) := by
    rw [sliceAssignRows]
    rw [ht1]
    rw [if_neg (not_not_intro ⟨hta, hnb⟩), if_pos
      ⟨by rw [List.length_map]; exact hslice_len,
       by rw [hmlen, hchildren_count]⟩]
  refine ⟨(o.mutate r2 children).1, ?_⟩
  refine ⟨{ o with
      prev_codes := some ((pyLastSlice (k : ℤ) (argsort scores)).map (fun i => codes.getD i []) ++ (o.mutate r2 children).1),
      rng := (o.mutate r2 children).2 }, ?_, ?_, ?_⟩
  · simp only [GeneticOptimizer.step, hprev, Option.getD_some, Option.getD_none, hb]
    rw [if_neg (not_not_intro hshape), if_neg (not_not_intro hall2)]
    rw [hslice]
  · rw [List.length_map]
    exact hslice_len
  · rw [hmlen, hchildren_count]

/-- C1 counterexample: with elite count `k` EQUAL to the requested output
population size (which the claim allows, `k` at most the size), `step` does
not return a population at all: breeding `pop_size - k = 0` children makes
the source call `np.stack` on an empty list, which raises. -/
theorem claim_C1_counterexample :
    GeneticOptimizer.step
      { space := [((0 : ℤ), (none, none))], shape := [1], distr := .normal,
        rng := { seed := 0, count := 0 }, prev_codes := some [[10], [20]],
        mutation_size := 1/10, mutation_rate := 3/10, init_pop_size := 2,
        temperature := 1, num_parents := 2, topk := 2 }
      [0, 1] (some 2) none (some 2)
      = .error "ValueError: need at least one array to stack" := by
  rfl

/-- C1 amended: for every `step` call with `1 ≤ k` STRICTLY below the
requested output population size (and `k` at most the current population
size, with a parent count the current population can supply), the call
succeeds and the `k` highest-scoring current codes appear with exact value
equality, unmodified by breeding or mutation, as the first `k` rows of the
returned next population. -/
theorem claim_C1_elitism (o : GeneticOptimizer) (codes : List (List ℚ))
    (scores : List ℚ) (k pop_size : ℕ)
    (hprev : o.prev_codes = some codes)
    (hshape : (o.shape.all fun z => decide ((0 : ℤ) ≤ z)) = true)
    (hlen : scores.length = codes.length)
    (hrect : ∀ row ∈ codes, row.length = o.codeDim)
    (hk1 : 0 < k) (hkn : k ≤ codes.length) (hkp : k < pop_size)
    (hnp1 : 1 ≤ o.num_parents) (hnpn : o.num_parents ≤ (codes.length : ℤ)) :
    ∃ out o', o.step scores (some pop_size) none (some (k : ℤ)) = .ok (out, o')
      ∧ out.take k = (pyLastSlice (k : ℤ) (argsort scores)).map
          (fun i => codes.getD i [])
      ∧ (pyLastSlice (k : ℤ) (argsort scores)).length = k
      ∧ (pyLastSlice (k : ℤ) (argsort scores)).Nodup
      ∧ (∀ i ∈ pyLastSlice (k : ℤ) (argsort scores), i < codes.length)
      ∧ (∀ i ∈ pyLastSlice (k : ℤ) (argsort scores), ∀ j, j < scores.length →
          j ∉ pyLastSlice (k : ℤ) (argsort scores) →
          scores.getD j 0 ≤ scores.getD i 0) := by
  obtain ⟨rest, o', hstep, hlen1, hlen2⟩ :=
    step_success o codes scores k pop_size hprev hshape hlen hrect hk1 hkn hkp
      hnp1 hnpn
  refine ⟨_, o', hstep, ?_, pyLastSlice_pos_length k hk1 _
      (by rw [argsort_length]; omega), ?_, ?_, ?_⟩
  · exact List.take_left' hlen1
  · rw [pyLastSlice_pos k hk1]
    exact (List.drop_sublist _ _).nodup (argsort_nodup scores)
  · intro i hi
    rw [pyLastSlice_pos k hk1] at hi
    have := argsort_mem_lt scores i (List.drop_subset _ _ hi)
    omega
  · intro i hi j hj hjn
    exact argsort_topk_dominates scores k hk1 i hi j hj hjn

/-- Witness for the amended C1: one elite among two codes, output size 2. -/
theorem claim_C1_elitism_witness :
    ∃ out o', GeneticOptimizer.step
      { space := [((0 : ℤ), (none, none))], shape := [1], distr := .normal,
        rng := { seed := 0, count := 0 }, prev_codes := some [[10], [20]],
        mutation_size := 1/10, mutation_rate := 3/10, init_pop_size := 2,
        temperature := 1, num_parents := 2, topk := 2 }
      [0, 1] (some 2) none (some (1 : ℤ)) = .ok (out, o')
      ∧ out.take 1 = (pyLastSlice ((1 : ℕ) : ℤ) (argsort [0, 1])).map
          (fun i => [[(10 : ℚ)], [20]].getD i [])
      ∧ (pyLastSlice ((1 : ℕ) : ℤ) (argsort [0, 1])).length = 1
      ∧ (pyLastSlice ((1 : ℕ) : ℤ) (argsort [0, 1])).Nodup
      ∧ (∀ i ∈ pyLastSlice ((1 : ℕ) : ℤ) (argsort [0, 1]),
          i < ([[(10 : ℚ)], [20]] : List (List ℚ)).length)
      ∧ (∀ i ∈ pyLastSlice ((1 : ℕ) : ℤ) (argsort [0, 1]), ∀ j,
          j < ([0, 1] : List ℚ).length →
          j ∉ pyLastSlice ((1 : ℕ) : ℤ) (argsort [0, 1]) →
          ([0, 1] : List ℚ).getD j 0 ≤ ([0, 1] : List ℚ).getD i 0) :=
  claim_C1_elitism
    { space := [((0 : ℤ), (none, none))], shape := [1], distr := .normal,
      rng := { seed := 0, count := 0 }, prev_codes := some [[10], [20]],
      mutation_size := 1/10, mutation_rate := 3/10, init_pop_size := 2,
      temperature := 1, num_parents := 2, topk := 2 }
    [[10], [20]] [0, 1] 1 2 rfl (by decide) (by decide) (by decide)
    (by decide) (by decide) (by decide) (by decide) (by decide)

/-- C6: for every valid `step` call the returned population has exactly the
requested output size (also when that size differs from the current
population size), its first `k` rows are codes drawn from the PREVIOUS
population, and the number of bred children is the new size minus the elite
count. -/
theorem claim_C6_population_size (o : GeneticOptimizer) (codes : List (List ℚ))
    (scores : List ℚ) (k pop_size : ℕ)
    (hprev : o.prev_codes = some codes)
    (hshape : (o.shape.all fun z => decide ((0 : ℤ) ≤ z)) = true)
    (hlen : scores.length = codes.length)
    (hrect : ∀ row ∈ codes, row.length = o.codeDim)
    (hk1 : 0 < k) (hkn : k ≤ codes.length) (hkp : k < pop_size)
    (hnp1 : 1 ≤ o.num_parents) (hnpn : o.num_parents ≤ (codes.length : ℤ)) :
    ∃ out o', o.step scores (some pop_size) none (some (k : ℤ)) = .ok (out, o')
      ∧ out.length = pop_size
      ∧ (out.drop k).length = pop_size - k
      ∧ ∀ row ∈ out.take k, row ∈ codes := by
  obtain ⟨rest, o', hstep, hlen1, hlen2⟩ :=
    step_success o codes scores k pop_size hprev hshape hlen hrect hk1 hkn hkp
      hnp1 hnpn
  refine ⟨_, o', hstep, ?_, ?_, ?_⟩
  · rw [List.length_append, hlen1, hlen2]
    omega
  · rw [List.length_drop, List.length_append, hlen1, hlen2]
    omega
  · intro row hrow
    rw [List.take_left' hlen1] at hrow
    obtain ⟨i, hi, rfl⟩ := List.mem_map.mp hrow
    have hib : i < codes.length := by
      rw [pyLastSlice_pos k hk1] at hi
      have := argsort_mem_lt scores i (List.drop_subset _ _ hi)
      omega
    rw [List.getD_eq_getElem _ _ hib]
    exact List.getElem_mem hib

/-- Witness for C6: output size 3 from a current population of size 2. -/
theorem claim_C6_population_size_witness :
    ∃ out o', GeneticOptimizer.step
      { space := [((0 : ℤ), (none, none))], shape := [1], distr := .normal,
        rng := { seed := 0, count := 0 }, prev_codes := some [[10], [20]],
        mutation_size := 1/10, mutation_rate := 3/10, init_pop_size := 2,
        temperature := 1, num_parents := 2, topk := 2 }
      [0, 1] (some 3) none (some (1 : ℤ)) = .ok (out, o')
      ∧ out.length = 3
      ∧ (out.drop 1).length = 3 - 1
      ∧ ∀ row ∈ out.take 1, row ∈ ([[(10 : ℚ)], [20]] : List (List ℚ)) :=
  claim_C6_population_size
    { space := [((0 : ℤ), (none, none))], shape := [1], distr := .normal,
      rng := { seed := 0, count := 0 }, prev_codes := some [[10], [20]],
      mutation_size := 1/10, mutation_rate := 3/10, init_pop_size := 2,
      temperature := 1, num_parents := 2, topk := 2 }
    [[10], [20]] [0, 1] 1 3 rfl (by decide) (by decide) (by decide)
    (by decide) (by decide) (by decide) (by decide) (by decide)

end ZXDream
